import Mathlib

/-!
Verification of the chat-history compaction engine of `aider/history.py`:
the JSON serialization of chat messages, the token cost model
(`ChatSummary.tokenize`), the recursive compactor (`ChatSummary.summarize`
and `ChatSummary.summarize_all`), and the markdown transcript parser in
`main`.  Python strings are modelled as Lean `String`, Python lists as
Lean `List`, the external collaborators (the tiktoken tokenizer and the
LLM call `simple_send_with_retries`) as function-valued fields of a
context structure.
-/

/-- A chat message: the Python dict `{"role": r, "content": c}`. -/
structure Msg where
  role : String
  content : String
deriving DecidableEq

instance : Inhabited Msg := ⟨⟨"", ""⟩⟩

/-- Python `str.startswith` over explicit character lists
(first argument: the candidate prefix characters). -/
def chStartsWith : List Char → List Char → Bool
  | [], _ => true
  | _ :: _, [] => false
  | p :: ps, c :: cs => p = c && chStartsWith ps cs

/-- Python `line.startswith(p)`. -/
def pyStartsWith (s p : String) : Bool := chStartsWith p.data s.data

/-- Python `s.endswith(p)`. -/
def pyEndsWith (s p : String) : Bool := chStartsWith p.data.reverse s.data.reverse

/-- The whitespace characters stripped by Python `str.strip()`
(restricted to the ASCII whitespace characters). -/
def pyIsSpace (c : Char) : Bool :=
  c = ' ' || c = '\t' || c = '\n' || c = '\r' || c = '\x0b' || c = '\x0c'

/-- Python `s.strip()`. -/
def pyStrip (s : String) : String :=
  ⟨((s.data.dropWhile pyIsSpace).reverse.dropWhile pyIsSpace).reverse⟩

/-- Python `s[n:]` (character based slicing). -/
def pyDrop (s : String) (n : Nat) : String := ⟨s.data.drop n⟩

/-- Python `s.upper()` (ASCII letters, which is all the source applies it to). -/
def pyUpper (s : String) : String := ⟨s.data.map Char.toUpper⟩

/-- One lowercase hexadecimal digit, as produced by Python's json encoder. -/
def hexDigitChar (n : Nat) : Char :=
  if n < 10 then Char.ofNat (48 + n) else Char.ofNat (87 + n)

/-- Four lowercase hexadecimal digits, as in Python json's `\uXXXX` escapes. -/
def hex4 (n : Nat) : String :=
  ⟨[hexDigitChar (n / 4096 % 16), hexDigitChar (n / 256 % 16),
    hexDigitChar (n / 16 % 16), hexDigitChar (n % 16)]⟩

/-- Python `json.dumps` escaping of a single character with the default
`ensure_ascii=True`: `"` and `\` get a backslash escape, the named control
escapes are `\b \t \n \f \r`, every other character outside `0x20..0x7e`
becomes `\uXXXX` (a surrogate pair beyond the BMP). -/
def jsonEscapeChar (c : Char) : String :=
  if c = '"' then "\\\""
  else if c = '\\' then "\\\\"
  else if c = '\x08' then "\\b"
  else if c = '\t' then "\\t"
  else if c = '\n' then "\\n"
  else if c = '\x0c' then "\\f"
  else if c = '\r' then "\\r"
  else if c.toNat < 32 ∨ c.toNat > 126 then
    if c.toNat < 65536 then "\\u" ++ hex4 c.toNat
    else "\\u" ++ hex4 (55296 + (c.toNat - 65536) / 1024) ++
         "\\u" ++ hex4 (56320 + (c.toNat - 65536) % 1024)
  else String.singleton c

/-- Python `json.dumps` of a string value. -/
def jsonQuote (s : String) : String :=
  "\"" ++ String.join (s.data.map jsonEscapeChar) ++ "\""

/-- Python `json.dumps(msg)` for a message dict built as
`dict(role=..., content=...)`: insertion order `role`, `content` and the
default separators `", "` and `": "`. -/
def jsonDumpsMsg (m : Msg) : String :=
  "\x7b\"role\": " ++ jsonQuote m.role ++ ", \"content\": " ++ jsonQuote m.content ++ "\x7d"

/-- Python `json.dumps(messages)` for a list of message dicts. -/
def jsonDumpsList (ms : List Msg) : String :=
  "[" ++ String.intercalate ", " (ms.map jsonDumpsMsg) ++ "]"

/-- The collaborators and configuration of a `ChatSummary` instance:
`enc` is the tiktoken token counter `len(self.tokenizer.encode(·))`,
`llm` is `simple_send_with_retries` viewed as a function of the user
prompt body built by `summarize_all` (the system instruction
`prompts.summarize` is fixed), `summaryTag` is `prompts.summary_prefix`
(modelled from the spec: `aider/prompts.py` is not among the sources and
the spec describes it as a fixed literal tag identifying machine-generated
summaries), and `max_tokens` is `self.max_tokens`. -/
structure Ctx where
  enc : String → Nat
  llm : String → String
  summaryTag : String
  max_tokens : Nat

/-- `ChatSummary.tokenize`: pair every message with the token count of its
own `json.dumps` serialization. -/
def tokenize (ctx : Ctx) (messages : List Msg) : List (Nat × Msg) :=
  messages.map fun msg => (ctx.enc (jsonDumpsMsg msg), msg)

/-- The sequence cost of the token cost model: the sum over the messages
of the token count of each message's own serialization. -/
def cost (ctx : Ctx) (messages : List Msg) : Nat :=
  (messages.map fun msg => ctx.enc (jsonDumpsMsg msg)).sum

/-- One iteration of the prompt-building loop of `ChatSummary.summarize_all`:
messages whose upper-cased role is neither `USER` nor `ASSISTANT` are
skipped (`continue`); otherwise a `# ROLE` header line and the content are
appended, followed by a newline when the accumulated text does not already
end with one. -/
def buildContentStep (content : String) (msg : Msg) : String :=
  let role := pyUpper msg.role
  if role = "USER" ∨ role = "ASSISTANT" then
    let c := content ++ "# " ++ role ++ "\n" ++ msg.content
    if pyEndsWith c "\n" then c else c ++ "\n"
  else content

/-- The prompt body `content` built by `ChatSummary.summarize_all`. -/
def buildContent (messages : List Msg) : String :=
  messages.foldl buildContentStep ""

/-- `ChatSummary.summarize_all`: send the serialized head to the LLM and
wrap the tagged response as a single user message. -/
def summarize_all (ctx : Ctx) (messages : List Msg) : List Msg :=
  [⟨"user", ctx.summaryTag ++ ctx.llm (buildContent messages)⟩]

/-- The while loop
`while messages[num]["role"] == "assistant" and num < len(messages) - 1: num += 1`
of `ChatSummary.summarize`, as a fueled structural loop; callers pass
enough fuel for the loop to run to completion (the loop body executes at
most `len(messages) - 1 - num` times). -/
def advanceSplitAux (messages : List Msg) : Nat → Nat → Nat
  | 0, num => num
  | k + 1, num =>
    if (messages.getD num default).role = "assistant" ∧ num < messages.length - 1 then
      advanceSplitAux messages k (num + 1)
    else num

/-- The split index computed by `ChatSummary.summarize`:
`num = len(messages) // 2` advanced by the boundary while loop. -/
def splitIndex (messages : List Msg) : Nat :=
  advanceSplitAux messages (messages.length - messages.length / 2) (messages.length / 2)

/-- The indexes at which the boundary while loop reads `messages[num]["role"]`,
in order (the read happens on every test of the loop condition, including
the failing one). -/
def advanceVisitsAux (messages : List Msg) : Nat → Nat → List Nat
  | 0, _ => []
  | k + 1, num =>
    if (messages.getD num default).role = "assistant" ∧ num < messages.length - 1 then
      num :: advanceVisitsAux messages k (num + 1)
    else [num]

/-- All indexes read by the boundary while loop of one recursive step. -/
def advanceVisits (messages : List Msg) : List Nat :=
  advanceVisitsAux messages (messages.length - messages.length / 2) (messages.length / 2)

/-- `head = messages[:num]` of one recursive step of `ChatSummary.summarize`. -/
def headOf (messages : List Msg) : List Msg := messages.take (splitIndex messages)

/-- `tail = messages[num:]` of one recursive step of `ChatSummary.summarize`. -/
def tailOf (messages : List Msg) : List Msg := messages.drop (splitIndex messages)

/-- `result = summary + tail` of one recursive step of `ChatSummary.summarize`. -/
def stepResult (ctx : Ctx) (messages : List Msg) : List Msg :=
  summarize_all ctx (headOf messages) ++ tailOf messages

/-- One unfolding of `ChatSummary.summarize`; `recur` stands for the
recursive call `self.summarize(result)` on the last line. -/
def summarizeStep (ctx : Ctx) (recur : List Msg → Option (List Msg))
    (messages : List Msg) : Option (List Msg) :=
  if messages.length < 2 then some messages
  else
    let sized := tokenize ctx messages
    let total := (sized.map Prod.fst).sum
    if total ≤ ctx.max_tokens then some messages
    else
      let num := splitIndex messages
      let tail := messages.drop num
      let summary := summarize_all ctx (messages.take num)
      let tail_tokens := ((sized.drop num).map Prod.fst).sum
      let summary_tokens := ctx.enc (jsonDumpsList summary)
      let result := summary ++ tail
      if summary_tokens + tail_tokens < ctx.max_tokens then some result
      else recur result

/-- `ChatSummary.summarize` with explicit recursion fuel: the Python
function returns only through the two `return messages` guards or the
budget check, so it need not terminate; `none` means the recursion did not
finish within `fuel` levels. -/
def summarizeFuel (ctx : Ctx) : Nat → List Msg → Option (List Msg)
  | 0, _ => none
  | fuel + 1, messages => summarizeStep ctx (summarizeFuel ctx fuel) messages

/-- Python `text.splitlines(keepends=True)` restricted to the `\n`, `\r\n`
and `\r` line breaks (the only ones occurring in the transcripts
considered here). -/
def splitlinesAux : List Char → List Char → List String
  | acc, [] => if acc = [] then [] else [⟨acc⟩]
  | acc, '\r' :: '\n' :: rest => (⟨acc ++ ['\r', '\n']⟩ : String) :: splitlinesAux [] rest
  | acc, '\n' :: rest => (⟨acc ++ ['\n']⟩ : String) :: splitlinesAux [] rest
  | acc, '\r' :: rest => (⟨acc ++ ['\r']⟩ : String) :: splitlinesAux [] rest
  | acc, c :: rest => splitlinesAux (acc ++ [c]) rest

/-- Python `text.splitlines(keepends=True)`. -/
def splitlinesKeepends (s : String) : List String := splitlinesAux [] s.data

/-- One iteration of the line loop of `main` in `aider/history.py`; the
state is the pair `(messages, assistant)` of the emitted turns and the
buffered assistant lines. -/
def parseStep (st : List Msg × List String) (line : String) : List Msg × List String :=
  if pyStartsWith line "# " then st
  else if pyStartsWith line ">" then st
  else if pyStartsWith line "#### /" then st
  else if pyStartsWith line "#### " then
    let msgs :=
      if st.2 ≠ [] ∧ pyStrip (String.join st.2) ≠ "" then
        st.1 ++ [⟨"assistant", String.join st.2⟩]
      else st.1
    let content := pyDrop line 5
    let msgs :=
      if pyStrip content ≠ "" ∧ pyStrip content ≠ "<blank>" then
        msgs ++ [⟨"user", pyDrop line 5⟩]
      else msgs
    (msgs, [])
  else (st.1, st.2 ++ [line])

/-- The final `(messages, assistant)` state after the line loop of `main`. -/
def parseLines (ls : List String) : List Msg × List String :=
  ls.foldl parseStep ([], [])

/-- The turn sequence produced by the transcript parser of `main`: the
`messages` list when the line loop finishes (the source uses `messages`
directly afterwards, without flushing the `assistant` buffer). -/
def parse (text : String) : List Msg :=
  (parseLines (splitlinesKeepends text)).1

/-- Modelled from the spec: the canonical transcript rendering (the writer
of the transcript format is external to this repository) — a User turn is
written as a line prefixed by the user-prompt marker `#### `, an Assistant
turn as its text in plain lines. -/
def renderCanonical (ms : List Msg) : String :=
  String.join (ms.map fun m =>
    if m.role = "user" then "#### " ++ m.content ++ "\n" else m.content ++ "\n")

/-- A concrete user message used in the concrete scenarios below. -/
def uX : Msg := ⟨"user", "x"⟩

/-- A concrete assistant message used in the concrete scenarios below. -/
def aY : Msg := ⟨"assistant", "y"⟩

/-- The summary message produced by the constant collaborators of `ctx1`. -/
def sS : Msg := ⟨"user", "S"⟩

/-- Scenario B of the spec: character-count tokenizer, constant summarizer,
empty summary tag, unreachable budget 1. -/
def ctx1 : Ctx := ⟨String.length, fun _ => "S", "", 1⟩

/-- Scenario B of the spec: the two-turn transcript. -/
def T1 : List Msg := [uX, aY]

/-- A context whose budget equals the exact per-turn cost of the first
recursive step's result on `T6`, exposing the boundary case of the budget
comparison. -/
def ctx6 : Ctx :=
  ⟨String.length, fun _ => "S", "",
   (jsonDumpsMsg sS).length + (jsonDumpsMsg aY).length⟩

/-- The two-turn transcript driving the budget boundary case. -/
def T6 : List Msg := [⟨"user", "hello"⟩, aY]

/-- A four-turn alternating transcript whose midpoint split lands after an
assistant turn. -/
def T2 : List Msg :=
  [⟨"user", "a"⟩, ⟨"assistant", "b"⟩, ⟨"user", "c"⟩, ⟨"assistant", "d"⟩]

/-- A context with a large budget, used for identity-style witnesses. -/
def ctxW : Ctx := ⟨String.length, fun _ => "S", "TAG: ", 1000⟩

/-- A concrete single user message. -/
def uHi : Msg := ⟨"user", "hi"⟩

/-- The transcript text with a trailing unterminated assistant buffer. -/
def t7 : String := "#### q\nans"

/-- The two turns of the parser round-trip scenario. -/
def turnsHiHello : List Msg := [⟨"user", "hi"⟩, ⟨"assistant", "hello"⟩]

/-- Cost computed by `tokenize` equals the sequence cost of the cost model. -/
lemma tokenize_total (ctx : Ctx) (ms : List Msg) :
    ((tokenize ctx ms).map Prod.fst).sum = cost ctx ms := by
  simp only [tokenize, cost, List.map_map]
  rfl

/-- Cost of a dropped suffix computed through `tokenize`. -/
lemma tokenize_drop_total (ctx : Ctx) (ms : List Msg) (n : Nat) :
    (((tokenize ctx ms).drop n).map Prod.fst).sum = cost ctx (ms.drop n) := by
  simp only [tokenize, cost, ← List.map_drop, List.map_map]
  rfl

/-- The boundary while loop never moves the split index backwards. -/
lemma advanceSplitAux_le (ms : List Msg) :
    ∀ k num, num ≤ advanceSplitAux ms k num := by
  intro k
  induction k with
  | zero => intro num; simp [advanceSplitAux]
  | succ k ih =>
    intro num
    simp only [advanceSplitAux]
    split
    · exact le_trans (Nat.le_succ num) (ih (num + 1))
    · exact le_refl num

/-- The boundary while loop never moves the split index past `len - 1`. -/
lemma advanceSplitAux_ub (ms : List Msg) :
    ∀ k num, num ≤ ms.length - 1 → advanceSplitAux ms k num ≤ ms.length - 1 := by
  intro k
  induction k with
  | zero => intro num h; simpa [advanceSplitAux] using h
  | succ k ih =>
    intro num h
    simp only [advanceSplitAux]
    split
    · next hc => exact ih (num + 1) (by omega)
    · exact h

/-- On a transcript of at least two turns the split index is at least one. -/
lemma splitIndex_pos (ms : List Msg) (h : 2 ≤ ms.length) : 1 ≤ splitIndex ms := by
  have h1 : 1 ≤ ms.length / 2 := by omega
  exact le_trans h1 (advanceSplitAux_le ms _ _)

/-- On a transcript of at least two turns the split index is at most `len - 1`. -/
lemma splitIndex_ub (ms : List Msg) (h : 2 ≤ ms.length) :
    splitIndex ms ≤ ms.length - 1 := by
  have h2 : ms.length / 2 < ms.length := Nat.div_lt_self (by omega) (by omega)
  exact advanceSplitAux_ub ms _ _ (by omega)

/-- Both terminal guards of `ChatSummary.summarize` return the input
unchanged, whatever the remaining fuel. -/
lemma summarizeFuel_terminal (ctx : Ctx) (fuel : Nat) (ms : List Msg)
    (h : ms.length < 2 ∨ cost ctx ms ≤ ctx.max_tokens) :
    summarizeFuel ctx (fuel + 1) ms = some ms := by
  show summarizeStep ctx (summarizeFuel ctx fuel) ms = some ms
  rcases h with h | h
  · simp [summarizeStep, h]
  · by_cases h2 : ms.length < 2
    · simp [summarizeStep, h2]
    · simp only [summarizeStep, if_neg h2]
      rw [tokenize_total]
      simp [h]

/-- Any value returned by the fueled compactor is no longer than its input. -/
lemma summarizeFuel_length_aux (ctx : Ctx) :
    ∀ fuel ms r, summarizeFuel ctx fuel ms = some r → r.length ≤ ms.length := by
  intro fuel
  induction fuel with
  | zero => intro ms r h; simp [summarizeFuel] at h
  | succ fuel ih =>
    intro ms r h
    by_cases h2 : ms.length < 2
    · rw [summarizeFuel, summarizeStep, if_pos h2] at h
      cases h
      exact le_refl _
    · have hsplit1 : 1 ≤ splitIndex ms := splitIndex_pos ms (by omega)
      rw [summarizeFuel, summarizeStep, if_neg h2] at h
      simp only at h
      split at h
      · cases h; exact le_refl _
      · split at h
        · cases h
          simp only [List.length_append, summarize_all, List.length_drop,
            List.length_singleton]
          omega
        · have := ih _ _ h
          simp only [List.length_append, summarize_all, List.length_drop,
            List.length_singleton] at this
          omega

/-- Dropping at least one element yields a suffix of the one-element drop. -/
lemma drop_split_suffix_one (ms : List Msg) (num : Nat) (h1 : 1 ≤ num) :
    ms.drop num <:+ ms.drop 1 := by
  have : ms.drop num = (ms.drop 1).drop (num - 1) := by
    rw [List.drop_drop]
    congr 1
    omega
  rw [this]
  exact List.drop_suffix _ _

/-- Structure of every value returned by the fueled compactor: either the
input itself, or one freshly built summary turn (role `user`, content
starting with the summary tag) followed by a nonempty suffix of the
input's own tail. -/
lemma summarizeFuel_shape_aux (ctx : Ctx) :
    ∀ fuel ms r, summarizeFuel ctx fuel ms = some r →
      r = ms ∨ ∃ m t, r = m :: t ∧ t ≠ [] ∧ t <:+ ms.drop 1 ∧ m.role = "user" ∧
        ∃ z, m.content = ctx.summaryTag ++ z := by
  intro fuel
  induction fuel with
  | zero => intro ms r h; simp [summarizeFuel] at h
  | succ fuel ih =>
    intro ms r h
    by_cases h2 : ms.length < 2
    · rw [summarizeFuel, summarizeStep, if_pos h2] at h
      cases h
      exact Or.inl rfl
    · have hlen : 2 ≤ ms.length := by omega
      have hsplit1 : 1 ≤ splitIndex ms := splitIndex_pos ms hlen
      have hsplitub : splitIndex ms ≤ ms.length - 1 := splitIndex_ub ms hlen
      have htail_ne : ms.drop (splitIndex ms) ≠ [] := by
        intro hnil
        have := List.drop_eq_nil_iff.mp hnil
        omega
      have htail_suf : ms.drop (splitIndex ms) <:+ ms.drop 1 :=
        drop_split_suffix_one ms _ hsplit1
      rw [summarizeFuel, summarizeStep, if_neg h2] at h
      simp only at h
      split at h
      · cases h; exact Or.inl rfl
      · split at h
        · cases h
          refine Or.inr ⟨⟨"user", ctx.summaryTag ++ ctx.llm (buildContent (ms.take (splitIndex ms)))⟩,
            ms.drop (splitIndex ms), ?_, htail_ne, htail_suf, rfl,
            ⟨ctx.llm (buildContent (ms.take (splitIndex ms))), rfl⟩⟩
          simp [summarize_all]
        · rcases ih _ _ h with hr | ⟨m, t, hr, htne, htsuf, hrole, z, hz⟩
          · subst hr
            refine Or.inr ⟨⟨"user", ctx.summaryTag ++ ctx.llm (buildContent (ms.take (splitIndex ms)))⟩,
              ms.drop (splitIndex ms), ?_, htail_ne, htail_suf, rfl,
              ⟨ctx.llm (buildContent (ms.take (splitIndex ms))), rfl⟩⟩
            simp [summarize_all]
          · refine Or.inr ⟨m, t, hr, htne, ?_, hrole, z, hz⟩
            refine htsuf.trans ?_
            simp only [summarize_all, List.singleton_append, List.drop_succ_cons,
              List.drop_zero]
            exact htail_suf

/-- Where the boundary while loop can stop: at `len - 1`, or at a
non-assistant turn. -/
lemma advanceSplitAux_boundary (ms : List Msg) :
    ∀ k num, num ≤ ms.length - 1 → ms.length ≤ num + k →
      advanceSplitAux ms k num = ms.length - 1 ∨
        (ms.getD (advanceSplitAux ms k num) default).role ≠ "assistant" := by
  intro k
  induction k with
  | zero =>
    intro num h1 h2
    left
    simp only [advanceSplitAux]
    omega
  | succ k ih =>
    intro num h1 h2
    simp only [advanceSplitAux]
    split
    · next hc => exact ih (num + 1) (by omega) (by omega)
    · next hc =>
      rcases Decidable.not_and_iff_or_not.mp hc with hrole | hlt
      · exact Or.inr hrole
      · left
        omega

/-- All indexes read by the boundary while loop lie between the start
index and `len - 1`. -/
lemma advanceVisitsAux_bounds (ms : List Msg) :
    ∀ k num, num ≤ ms.length - 1 →
      ∀ i ∈ advanceVisitsAux ms k num, num ≤ i ∧ i ≤ ms.length - 1 := by
  intro k
  induction k with
  | zero => intro num h i hi; simp [advanceVisitsAux] at hi
  | succ k ih =>
    intro num h i hi
    simp only [advanceVisitsAux] at hi
    split at hi
    · next hc =>
      rcases List.mem_cons.mp hi with rfl | hi
      · omega
      · have := ih (num + 1) (by omega) i hi
        omega
    · rcases List.mem_singleton.mp hi with rfl
      omega

/-- A line that does not start with the user-prompt marker never changes
the emitted messages of the parser state. -/
lemma parseStep_fst_of_no_marker (st : List Msg × List String) (l : String)
    (h : pyStartsWith l "#### " = false) : (parseStep st l).1 = st.1 := by
  simp only [parseStep]
  split
  · rfl
  · split
    · rfl
    · split
      · rfl
      · split
        · next hmark => rw [h] at hmark; cases hmark
        · rfl

/-- Folding the parser over marker-free lines leaves the emitted messages
unchanged (the lines only accumulate in the assistant buffer). -/
lemma foldl_parseStep_fst (extra : List String)
    (h : ∀ l ∈ extra, pyStartsWith l "#### " = false) :
    ∀ st : List Msg × List String, (extra.foldl parseStep st).1 = st.1 := by
  induction extra with
  | nil => intro st; rfl
  | cons l ls ih =>
    intro st
    rw [List.foldl_cons]
    rw [ih (fun x hx => h x (List.mem_cons_of_mem l hx))]
    exact parseStep_fst_of_no_marker st l (h l (List.mem_cons_self l ls))

/-- A message whose upper-cased role is neither `USER` nor `ASSISTANT`
contributes nothing to the prompt body of `summarize_all`. -/
lemma buildContent_skip (pre post : List Msg) (m : Msg)
    (h1 : pyUpper m.role ≠ "USER") (h2 : pyUpper m.role ≠ "ASSISTANT") :
    buildContent (pre ++ m :: post) = buildContent (pre ++ post) := by
  simp only [buildContent, List.foldl_append, List.foldl_cons]
  congr 1
  simp [buildContentStep, h1, h2]

/-- In the recursive case the step reduces to the budget comparison the
source performs: list-serialized summary tokens plus per-turn tail tokens
against the strict budget bound. -/
lemma summarizeStep_recursive (ctx : Ctx) (recur : List Msg → Option (List Msg))
    (ms : List Msg) (h2 : 2 ≤ ms.length) (hover : ctx.max_tokens < cost ctx ms) :
    summarizeStep ctx recur ms =
      if ctx.enc (jsonDumpsList (summarize_all ctx (headOf ms))) + cost ctx (tailOf ms) <
          ctx.max_tokens then
        some (stepResult ctx ms)
      else recur (stepResult ctx ms) := by
  rw [summarizeStep, if_neg (by omega)]
  simp only
  rw [tokenize_total, if_neg (by omega), tokenize_drop_total]
  rfl

/-- The recursive case returns `result` when the source's internal check
passes, and also, through the immediate recursive call, when the per-turn
cost of `result` is within budget. -/
lemma summarizeFuel_step_returns (ctx : Ctx) (fuel : Nat) (ms : List Msg)
    (h2 : 2 ≤ ms.length) (hover : ctx.max_tokens < cost ctx ms)
    (h : ctx.enc (jsonDumpsList (summarize_all ctx (headOf ms))) + cost ctx (tailOf ms) <
           ctx.max_tokens
         ∨ cost ctx (stepResult ctx ms) ≤ ctx.max_tokens) :
    summarizeFuel ctx (fuel + 2) ms = some (stepResult ctx ms) := by
  have hstep : summarizeFuel ctx (fuel + 2) ms =
      summarizeStep ctx (summarizeFuel ctx (fuel + 1)) ms := rfl
  rw [hstep, summarizeStep_recursive ctx _ ms h2 hover]
  by_cases hc : ctx.enc (jsonDumpsList (summarize_all ctx (headOf ms))) + cost ctx (tailOf ms) <
      ctx.max_tokens
  · rw [if_pos hc]
  · rcases h with h | h
    · exact absurd h hc
    · rw [if_neg hc]
      exact summarizeFuel_terminal ctx fuel _ (Or.inr h)

/-- With the collaborators of `ctx1`, one unfolding of the compactor on the
fixed point `[sS, aY]` just recurses on the same list. -/
lemma ctx1_step_fix (g : List Msg → Option (List Msg)) :
    summarizeStep ctx1 g [sS, aY] = g [sS, aY] := rfl

/-- With the collaborators of `ctx1`, one unfolding of the compactor on the
Scenario B transcript recurses on `[sS, aY]`. -/
lemma ctx1_step_first (g : List Msg → Option (List Msg)) :
    summarizeStep ctx1 g T1 = g [sS, aY] := rfl

/-- With the collaborators of `ctx1` the compactor never finishes on
`[sS, aY]`, whatever the fuel. -/
lemma ctx1_loop : ∀ fuel, summarizeFuel ctx1 fuel [sS, aY] = none := by
  intro fuel
  induction fuel with
  | zero => rfl
  | succ fuel ih =>
    rw [summarizeFuel, ctx1_step_fix]
    exact ih

/-- Claim C1: the claim says that on every 2-turn transcript with an
unreachable budget `compact` stops recursing and returns its best-effort
2-turn result.  The source has no such stop: on Scenario B (2 turns, budget
1, a summarizer whose output never fits) `ChatSummary.summarize` recurses
forever — the fueled embedding returns `none` for every fuel bound. -/
theorem compact_two_turn_never_stops : ∀ fuel, summarizeFuel ctx1 fuel T1 = none := by
  intro fuel
  cases fuel with
  | zero => rfl
  | succ fuel =>
    rw [summarizeFuel, ctx1_step_first]
    exact ctx1_loop fuel

/-- Claim C2 (counterexample): on the four-turn alternating transcript `T2`
the recursive case is entered (length 4 and cost above budget), the split
index is 2, and the head `turns[0:2]` ends on an Assistant turn while
having length 2, refuting "the head never ends on an Assistant turn unless
it has length 1". -/
theorem split_head_ends_assistant_cex :
    2 ≤ T2.length ∧ ctx1.max_tokens < cost ctx1 T2 ∧ splitIndex T2 = 2 ∧
    headOf T2 = [⟨"user", "a"⟩, ⟨"assistant", "b"⟩] ∧
    (headOf T2).getLast? = some ⟨"assistant", "b"⟩ ∧ (headOf T2).length ≠ 1 := by
  decide

/-- Claim C2 (amended): in every recursive split the turn at the split
index — the first turn of the tail, the turn the head's boundary stops
before — is never an Assistant turn unless the split index was capped at
`len(turns) - 1`. -/
theorem split_boundary_not_assistant (ms : List Msg) (h : 2 ≤ ms.length) :
    splitIndex ms = ms.length - 1 ∨
      (ms.getD (splitIndex ms) default).role ≠ "assistant" := by
  have h2 : ms.length / 2 < ms.length := Nat.div_lt_self (by omega) (by omega)
  exact advanceSplitAux_boundary ms _ _ (by omega) (by omega)

/-- Witness for the amended C2 theorem at the concrete transcript `T1`. -/
theorem split_boundary_not_assistant_witness :
    2 ≤ T1.length ∧ (splitIndex T1 = T1.length - 1 ∨
      (T1.getD (splitIndex T1) default).role ≠ "assistant") :=
  ⟨by decide, split_boundary_not_assistant T1 (by decide)⟩

/-- Claim C3: `compact` returns its input unchanged whenever the input has
fewer than two turns, and whenever the input's total cost is within the
budget. -/
theorem compact_identity (ctx : Ctx) (fuel : Nat) (ms : List Msg)
    (h : ms.length < 2 ∨ cost ctx ms ≤ ctx.max_tokens) :
    summarizeFuel ctx (fuel + 1) ms = some ms :=
  summarizeFuel_terminal ctx fuel ms h

/-- Witness for the C3 theorem: `T1` fits the large budget of `ctxW`. -/
theorem compact_identity_witness :
    (T1.length < 2 ∨ cost ctxW T1 ≤ ctxW.max_tokens) ∧
    summarizeFuel ctxW (0 + 1) T1 = some T1 :=
  ⟨Or.inr (by decide), compact_identity ctxW 0 T1 (Or.inr (by decide))⟩

/-- Claim C4: every turn sequence returned by `compact` has at most as many
turns as the input, for every transcript, budget and collaborator. -/
theorem compact_length_le (ctx : Ctx) (fuel : Nat) (ms r : List Msg)
    (h : summarizeFuel ctx fuel ms = some r) : r.length ≤ ms.length :=
  summarizeFuel_length_aux ctx fuel ms r h

/-- Witness for the C4 theorem at the concrete run of `ctx6` on `T6`. -/
theorem compact_length_le_witness :
    summarizeFuel ctx6 2 T6 = some (stepResult ctx6 T6) ∧
    (stepResult ctx6 T6).length ≤ T6.length :=
  ⟨by decide, compact_length_le ctx6 2 T6 (stepResult ctx6 T6) (by decide)⟩

/-- Claim C5: whenever `compact` returns a sequence different from its
input, that sequence is exactly one synthetic summary turn — role `user`,
content beginning with the fixed summary tag — followed by a nonempty
contiguous suffix of the original input turns in their original order. -/
theorem compact_output_form (ctx : Ctx) (fuel : Nat) (ms r : List Msg)
    (h : summarizeFuel ctx fuel ms = some r) (hne : r ≠ ms) :
    ∃ m t, r = m :: t ∧ t ≠ [] ∧ t <:+ ms ∧ m.role = "user" ∧
      ∃ z, m.content = ctx.summaryTag ++ z := by
  rcases summarizeFuel_shape_aux ctx fuel ms r h with hr | ⟨m, t, hrt, htne, htsuf, hrole, hz⟩
  · exact absurd hr hne
  · exact ⟨m, t, hrt, htne, htsuf.trans (List.drop_suffix 1 ms), hrole, hz⟩

/-- Witness for the C5 theorem at the concrete run of `ctx6` on `T6`. -/
theorem compact_output_form_witness :
    ∃ m t, stepResult ctx6 T6 = m :: t ∧ t ≠ [] ∧ t <:+ T6 ∧ m.role = "user" ∧
      ∃ z, m.content = ctx6.summaryTag ++ z :=
  compact_output_form ctx6 2 T6 (stepResult ctx6 T6) (by decide) (by decide)

/-- Claim C6 (counterexample): with `ctx6` on `T6` the recursive case is
entered and `compact` returns `result = [summaryTurn] + tail` even though
`cost(result)` equals the budget, so `cost(result) < budget` is false —
the "exactly when" of the claim fails (the code's internal check
serializes the summary as a one-element list and, failing it, the
recursive call's non-strict terminal check returns `result` anyway). -/
theorem compact_budget_guard_cex :
    2 ≤ T6.length ∧ ctx6.max_tokens < cost ctx6 T6 ∧
    summarizeFuel ctx6 2 T6 = some (stepResult ctx6 T6) ∧
    ¬ cost ctx6 (stepResult ctx6 T6) < ctx6.max_tokens := by
  decide

/-- Claim C6 (amended): in the recursive case `compact` returns
`result = [summaryTurn] + tail` when the token count of the summary's
one-element-list serialization plus the per-turn tail tokens is strictly
below the budget, and also — through the immediate recursive call — when
the per-turn cost of `result` is at most the budget. -/
theorem compact_step_result_cond (ctx : Ctx) (fuel : Nat) (ms : List Msg)
    (h2 : 2 ≤ ms.length) (hover : ctx.max_tokens < cost ctx ms)
    (h : ctx.enc (jsonDumpsList (summarize_all ctx (headOf ms))) + cost ctx (tailOf ms) <
           ctx.max_tokens
         ∨ cost ctx (stepResult ctx ms) ≤ ctx.max_tokens) :
    summarizeFuel ctx (fuel + 2) ms = some (stepResult ctx ms) :=
  summarizeFuel_step_returns ctx fuel ms h2 hover h

/-- Witness for the amended C6 theorem at the concrete run of `ctx6` on `T6`. -/
theorem compact_step_result_cond_witness :
    2 ≤ T6.length ∧ ctx6.max_tokens < cost ctx6 T6 ∧
    cost ctx6 (stepResult ctx6 T6) ≤ ctx6.max_tokens ∧
    summarizeFuel ctx6 (0 + 2) T6 = some (stepResult ctx6 T6) :=
  ⟨by decide, by decide, by decide,
    compact_step_result_cond ctx6 0 T6 (by decide) (by decide) (Or.inr (by decide))⟩

/-- Claim C7 (counterexample): on the transcript text `t7` the line loop
ends with the non-blank assistant buffer `["ans"]` still pending, yet the
parsed sequence is just the user turn — no final Assistant turn is
emitted, refuting the claimed end-of-input flush. -/
theorem parser_trailing_buffer_cex :
    (parseLines (splitlinesKeepends t7)).2 = ["ans"] ∧
    pyStrip (String.join ["ans"]) ≠ "" ∧
    parse t7 = [⟨"user", "q\n"⟩] ∧
    (parse t7).filter (fun m => m.role == "assistant") = [] := by
  decide

/-- Claim C7 (amended): buffered Assistant content is emitted only when a
later user-prompt marker line flushes it; trailing lines that contain no
user-prompt marker — in particular a trailing unterminated Assistant
buffer — never change the emitted turns and are dropped at end of input. -/
theorem parser_trailing_buffer_dropped (ls extra : List String)
    (h : ∀ l ∈ extra, pyStartsWith l "#### " = false) :
    (parseLines (ls ++ extra)).1 = (parseLines ls).1 := by
  unfold parseLines
  rw [List.foldl_append]
  exact foldl_parseStep_fst extra h _

/-- Witness for the amended C7 theorem on the lines of `t7`. -/
theorem parser_trailing_buffer_dropped_witness :
    (∀ l ∈ ["ans"], pyStartsWith l "#### " = false) ∧
    (parseLines (["#### q\n"] ++ ["ans"])).1 = (parseLines ["#### q\n"]).1 :=
  ⟨by decide, parser_trailing_buffer_dropped ["#### q\n"] ["ans"] (by decide)⟩

/-- Claim C8 (counterexample): parsing the canonical rendering of
`[User:"hi", Assistant:"hello"]` yields only `[User:"hi\n"]` — the
Assistant turn is lost (no end-of-input flush) and the User content keeps
its trailing newline (no trimming) — so the round trip does not reproduce
the two turns. -/
theorem parser_roundtrip_cex :
    parse (renderCanonical turnsHiHello) = [⟨"user", "hi\n"⟩] ∧
    parse (renderCanonical turnsHiHello) ≠ turnsHiHello := by
  decide

/-- Claim C8 (amended): parsing the canonical rendering of
`[User:"hi", Assistant:"hello"]` yields exactly `[User:"hi\n"]`: the user
turn with the marker stripped but the trailing newline kept, and no
Assistant turn. -/
theorem parser_roundtrip_amended :
    parse (renderCanonical turnsHiHello) = [⟨"user", "hi\n"⟩] := by
  decide

/-- Claim C9: the prompt body sent to the summary collaborator serializes
only turns whose role upper-cases to `USER` or `ASSISTANT`; a turn of any
other role (e.g. `system`), wherever it sits in the head, is silently
omitted — `summarize_all` gives the same result with or without it. -/
theorem summarize_all_skips_other_roles (ctx : Ctx) (pre post : List Msg) (m : Msg)
    (h1 : pyUpper m.role ≠ "USER") (h2 : pyUpper m.role ≠ "ASSISTANT") :
    summarize_all ctx (pre ++ m :: post) = summarize_all ctx (pre ++ post) := by
  unfold summarize_all
  rw [buildContent_skip pre post m h1 h2]

/-- Witness for the C9 theorem with a concrete `system` turn. -/
theorem summarize_all_skips_other_roles_witness :
    pyUpper (Msg.role ⟨"system", "sys"⟩) ≠ "USER" ∧
    pyUpper (Msg.role ⟨"system", "sys"⟩) ≠ "ASSISTANT" ∧
    summarize_all ctxW ([] ++ ⟨"system", "sys"⟩ :: [uHi]) =
      summarize_all ctxW ([] ++ [uHi]) :=
  ⟨by decide, by decide,
    summarize_all_skips_other_roles ctxW [] [uHi] ⟨"system", "sys"⟩ (by decide) (by decide)⟩

/-- Claim C10: on a transcript of at least two turns every index read by
the boundary-advance loop lies between `len // 2` and `len - 1` inclusive
(so no read is out of bounds), and the returned split index is at most
`len - 1`. -/
theorem split_search_in_bounds (ms : List Msg) (h : 2 ≤ ms.length) :
    (∀ i ∈ advanceVisits ms, ms.length / 2 ≤ i ∧ i ≤ ms.length - 1) ∧
    splitIndex ms ≤ ms.length - 1 := by
  have h2 : ms.length / 2 < ms.length := Nat.div_lt_self (by omega) (by omega)
  exact ⟨fun i hi => advanceVisitsAux_bounds ms _ _ (by omega) i hi, splitIndex_ub ms h⟩

/-- Witness for the C10 theorem at the concrete transcript `T2`. -/
theorem split_search_in_bounds_witness :
    2 ≤ T2.length ∧
    ((∀ i ∈ advanceVisits T2, T2.length / 2 ≤ i ∧ i ≤ T2.length - 1) ∧
      splitIndex T2 ≤ T2.length - 1) :=
  ⟨by decide, split_search_in_bounds T2 (by decide)⟩
